import Mathlib

/-!
Verification of the anonymous contact-message service of the personal-website
repository, together with the client-side helpers that ship in `src/`.

The backend program (`contact-me.py`) is referenced by the repository's
documentation (`CONTACT_SETUP.md`) and by the frontend's API types
(`src/features/contact/type.ts`) but its source is not part of the repository
snapshot; the handler definitions below are therefore modelled from the spec,
each marked `Modelled from the spec:` in its doc comment.  Client-side code
(the zod validation schema, `generateRandomKey`, `onCheckReply`,
`highlightSearchTerm`) is embedded directly from the TypeScript sources.
-/

/-- JavaScript's `String.prototype.trim` (and Python's `str.strip`):
whitespace removed from both ends, embedded structurally so that it evaluates
by kernel reduction. -/
def jsTrim (s : String) : String :=
  String.mk
    (((s.toList.dropWhile Char.isWhitespace).reverse.dropWhile
        Char.isWhitespace).reverse)

namespace ContactService

/-- A stored Message row, as described in the spec's data model (§3): an opaque
`key`, the sender-supplied `body`, the immutable `is_public` flag, the creation
timestamp, and the optional admin reply fields.  Timestamps are abstracted to
naturals. -/
structure Message where
  key : String
  body : String
  is_public : Bool
  created_at : Nat
  reply_body : Option String
  reply_timestamp : Option Nat
  deriving Repr, DecidableEq

/-- Derived boolean from the spec (§3, Reply): `replied` = reply_body is present. -/
def Message.replied (m : Message) : Bool :=
  m.reply_body.isSome

/-- The persistent store: one table of Message rows (spec §6). -/
abbrev Store := List Message

/-- The keys currently present in the store. -/
def storeKeys (s : Store) : List String :=
  s.map (·.key)

/-- Embedding of `anonymousMessageSchema` from
`src/features/contact/type.ts`: `z.object({ message: z.string().min(10).max(500),
public: z.boolean() })`.  zod's `min`/`max` are inclusive bounds on the raw
string length; no trimming is applied. -/
def anonymousMessageValid (message : String) : Bool :=
  10 ≤ message.length && message.length ≤ 500

/-- Modelled from the spec: the submission handler's validation (§4.1),
"reject if `message` is empty/whitespace-only or exceeds the configured
maximum length", with the maximum length as a configuration parameter. -/
def serverValidate (maxLen : Nat) (message : String) : Bool :=
  !(jsTrim message == "") && message.length ≤ maxLen

/-- Modelled from the spec: key generation with retry on collision (§4.1).
The random source is abstracted as the list of candidate keys it would
produce in order; generation walks it until a candidate not already used is
found. -/
def genKey (cands : List String) (used : List String) : Option String :=
  match cands with
  | [] => none
  | c :: cs => if c ∈ used then genKey cs used else some c

/-- Response shape of `POST /api/contact/send-message`, from
`SendMessageApiResponse` in `src/features/contact/type.ts`: either
`{status:"success", message, key}` or `{status:"error", message, errors?}`
with a per-field error map. -/
inductive SendResponse where
  | success (message : String) (key : String)
  | error (message : String) (errors : List (String × List String))
  deriving Repr, DecidableEq

/-- Modelled from the spec: the submission handler (§4.1, `contact-me.py` not in
the snapshot).  Validates, generates a fresh key (retrying on collision via
`genKey`), inserts a new Message row with no reply (`replied = false`), and
returns `{status:"success", key}`; on validation failure returns the error
shape with a per-field error map and leaves the store unchanged.  Exhaustion of
the candidate stream is the spec's "unexpected/internal" error (§7). -/
def sendMessage (maxLen : Nat) (cands : List String) (now : Nat)
    (s : Store) (message : String) (isPub : Bool) : SendResponse × Store :=
  if serverValidate maxLen message then
    match genKey cands (storeKeys s) with
    | some k =>
        (.success "Message sent" k,
         s ++ [{ key := k, body := message, is_public := isPub,
                 created_at := now, reply_body := none, reply_timestamp := none }])
    | none => (.error "unexpected error" [], s)
  else
    (.error "Validation failed"
      [("message", ["message must be non-empty and within the maximum length"])], s)

/-- Response shape of `POST /api/contact/check-reply`, from
`CheckReplyApiResponse` in `src/features/contact/type.ts`. -/
inductive CheckReplyResponse where
  | success (reply : String)
  | error (message : String)
  deriving Repr, DecidableEq

/-- Modelled from the spec: the reply-check handler (§4.2).  Looks the Message
up by exact key match; not found gives the invalid-key error shape, found
without a reply gives the "no reply yet" error shape, found with a reply gives
`{status:"success", reply}`.  The handler returns the store it was given. -/
def checkReply (s : Store) (k : String) : CheckReplyResponse × Store :=
  match s.find? (fun m => m.key == k) with
  | none => (.error "invalid key", s)
  | some m =>
      match m.reply_body with
      | none => (.error "no reply yet", s)
      | some r => (.success r, s)

/-- A public-listing entry, from `PublicMessage` in
`src/features/contact/type.ts`: `{ message, timestamp, reply, reply_timestamp,
replied }`. -/
structure PublicMessage where
  message : String
  timestamp : Nat
  reply : Option String
  reply_timestamp : Option Nat
  replied : Bool
  deriving Repr, DecidableEq

/-- Modelled from the spec: how the public listing shapes a stored row into a
listing entry (§4.3): `{ message, timestamp, reply, reply_timestamp, replied }`
with the reply fields null when unanswered.  The row's `key` is not carried
over. -/
def toPublicMessage (m : Message) : PublicMessage :=
  { message := m.body, timestamp := m.created_at, reply := m.reply_body,
    reply_timestamp := m.reply_timestamp, replied := m.replied }

/-- Modelled from the spec: the public listing handler (§4.3): returns all
Messages with `is_public = true`, shaped by `toPublicMessage`. -/
def publicMessages (s : Store) : List PublicMessage :=
  (s.filter (·.is_public)).map toPublicMessage

/-- The admin operations: list all messages, reply to a key, statistics
(spec §4.5-§4.7). -/
inductive AdminOp where
  | list
  | reply (key : String) (body : String) (now : Nat)
  | stats
  deriving Repr, DecidableEq

/-- Admin responses: an authentication failure (also covering the
admin-endpoints-disabled case when no secret is configured), the full message
list, reply acknowledgement, not-found, or the aggregate counts. -/
inductive AdminResponse where
  | authFailure
  | messages (ms : List Message)
  | replyOk
  | notFound
  | stats (total replied unreplied publicCount : Nat)
  deriving Repr, DecidableEq

/-- Modelled from the spec: admin authentication (§4.4): a single shared secret
compared against the bearer token on every admin request; absence of the
configured secret disables all admin endpoints (no default credential). -/
def adminAuth (config : Option String) (token : Option String) : Bool :=
  match config with
  | none => false
  | some secret => token == some secret

/-- Modelled from the spec: the admin reply's per-row effect (§4.6): the target
row's reply fields are set/overwritten, every other row is untouched. -/
def applyReply (k body : String) (now : Nat) (m : Message) : Message :=
  if m.key == k then
    { m with reply_body := some body, reply_timestamp := some now }
  else m

/-- Modelled from the spec: one admin request (§4.4-§4.7).  Authentication is
checked before any access to the store; on failure the request is rejected
with `authFailure` and the store is untouched.  `list` returns every row
including keys; `reply` overwrites the target row's reply fields
(last-write-wins, not-found signalled when the key is absent); `stats` returns
total/replied/unreplied/public counts. -/
def adminHandler (config : Option String) (token : Option String)
    (op : AdminOp) (s : Store) : AdminResponse × Store :=
  if adminAuth config token then
    match op with
    | .list => (.messages s, s)
    | .reply k body now =>
        if s.any (fun m => m.key == k) then
          (.replyOk, s.map (applyReply k body now))
        else (.notFound, s)
    | .stats =>
        (.stats s.length
          (s.countP (fun m => m.replied))
          (s.countP (fun m => !m.replied))
          (s.countP (fun m => m.is_public)), s)
  else
    (.authFailure, s)

/-- One request to the service, covering every store-touching endpoint. -/
inductive Op where
  | send (maxLen : Nat) (cands : List String) (now : Nat) (message : String) (isPub : Bool)
  | check (key : String)
  | admin (config : Option String) (token : Option String) (aop : AdminOp)
  deriving Repr

/-- The store left behind by one request. -/
def applyOp (s : Store) : Op → Store
  | .send maxLen cands now message isPub => (sendMessage maxLen cands now s message isPub).2
  | .check k => (checkReply s k).2
  | .admin c t aop => (adminHandler c t aop s).2

/-- The store left behind by a sequence of requests. -/
def runOps (s : Store) : List Op → Store
  | [] => s
  | op :: ops => runOps (applyOp s op) ops

/-- Embedding of `generateRandomKey` from
`src/features/contact/components/ContactForm.tsx`:
`Math.random().toString(36).substring(2, 15) + Math.random().toString(36).substring(2, 15)`.
Each `Math.random()` sample is modelled as a dyadic rational `r / 2^53` given by
its numerator, and `toString(36).substring(2, 15)` as the first 13 base-36
fractional digits of that value (idealising the float printer to keep trailing
zeros).  The key is a pure function of the two PRNG outputs. -/
def base36Digit (d : Nat) : Char :=
  if d < 10 then Char.ofNat (48 + d) else Char.ofNat (87 + d)

/-- The first `count` base-36 fractional digits of `k / 2^53`. -/
def frac36 (k : Nat) (count : Nat) : List Char :=
  (List.range count).map (fun j => base36Digit (k * 36 ^ (j + 1) / 2 ^ 53 % 36))

/-- See `base36Digit`; the concatenation of the two 13-digit blocks. -/
def generateRandomKey (r1 r2 : Nat) : String :=
  String.mk (frac36 r1 13 ++ frac36 r2 13)

/-- The toast notifications raised by the contact form (`sonner`'s
`toast.error` / `toast.success` / `toast.info`). -/
inductive Toast where
  | error (msg : String)
  | success (msg : String)
  | info (msg : String)
  deriving Repr, DecidableEq

/-- The reply-status state of the contact form:
`useState<'success' | 'error' | null>`. -/
inductive ReplyStatus where
  | success
  | error
  deriving Repr, DecidableEq

/-- The pieces of React state of `ContactForm` that `onCheckReply` reads or
writes (`src/features/contact/components/ContactForm.tsx`). -/
structure CheckReplyFormState where
  replyMessage : Option String
  replyStatus : Option ReplyStatus
  isCheckingReply : Bool
  keyToCheck : String
  deriving Repr, DecidableEq

/-- The translation strings `onCheckReply` uses. -/
structure CheckReplyTranslations where
  invalidKeyToast : String
  replyReceived : String
  toastErrorUnexpected : String
  deriving Repr, DecidableEq

/-- Embedding of `onCheckReply` from
`src/features/contact/components/ContactForm.tsx`.  The awaited result of the
`fetch` to `/api/contact/check-reply` is passed in as `response` (`none`
models a thrown network/parse error).  Returns the final form state, the
toasts raised, and the list of keys POSTed to the check-reply endpoint.
The guard `if (!keyToCheck)` is the JavaScript falsiness test, which for the
string state `keyToCheck` means emptiness; on that path the handler raises the
invalid-key toast and returns before touching any other state and before any
request is issued. -/
def onCheckReply (tr : CheckReplyTranslations) (st : CheckReplyFormState)
    (response : Option CheckReplyResponse) :
    CheckReplyFormState × List Toast × List String :=
  if st.keyToCheck == "" then
    (st, [.error tr.invalidKeyToast], [])
  else
    let st1 := { st with isCheckingReply := true,
                         replyMessage := none, replyStatus := none }
    match response with
    | some (.success r) =>
        ({ st1 with replyMessage := some r, replyStatus := some .success,
                    isCheckingReply := false },
         [.success tr.replyReceived], [st.keyToCheck])
    | some (.error m) =>
        ({ st1 with replyMessage := some m, replyStatus := some .error,
                    isCheckingReply := false },
         [.info m], [st.keyToCheck])
    | none =>
        ({ st1 with isCheckingReply := false },
         [.error tr.toastErrorUnexpected], [st.keyToCheck])

end ContactService

namespace SearchHighlight

/-- Case-insensitive character comparison, modelling a regex built with the
`i` flag. -/
def lowerEq (a b : Char) : Bool :=
  a.toLower == b.toLower

/-- `matchesAtCI term text`: the literal `term` matches at the start of `text`,
case-insensitively. -/
def matchesAtCI : List Char → List Char → Bool
  | [], _ => true
  | _ :: _, [] => false
  | a :: as, b :: bs => lowerEq a b && matchesAtCI as bs

/-- `containsCI term text`: the literal `term` matches somewhere in `text`,
case-insensitively.  This is `regex.test(part)` for the escaped, `gi`-flagged
regex of `highlightSearchTerm` (whose `lastIndex` is reset after every test). -/
def containsCI (term : List Char) : List Char → Bool
  | [] => matchesAtCI term []
  | c :: cs => matchesAtCI term (c :: cs) || containsCI term cs

/-- The worker behind `text.split(regex)` for a regex that is a single capture
group around the escaped (hence literal) search term with flags `gi`:
JavaScript's split-with-capture returns the plain chunks interleaved with the
captured separators, the separator text taken from `text` itself.  `acc` holds
the reversed pending plain chunk.  The `0 < term.length` guard records that the
pattern matches only non-empty text (the escaped term is non-empty whenever
`highlightSearchTerm` reaches the split). -/
def splitCIGo (term : List Char) (acc : List Char) (text : List Char) :
    List (List Char) :=
  match text with
  | [] => [acc.reverse]
  | c :: cs =>
      if _h : 0 < term.length ∧ matchesAtCI term (c :: cs) = true then
        acc.reverse :: (c :: cs).take term.length ::
          splitCIGo term [] ((c :: cs).drop term.length)
      else
        splitCIGo term (c :: acc) cs
termination_by text.length
decreasing_by
  all_goals simp only [List.length_drop, List.length_cons]
  all_goals omega

/-- `text.split(regex)` as used in `highlightSearchTerm`. -/
def splitCI (term text : List Char) : List (List Char) :=
  splitCIGo term [] text

/-- Embedding of `highlightSearchTerm` from
`src/features/blog/components/searchUtils` (src/unnamed/part_005).  The
returned React fragment list is modelled as a list of `(highlighted, part)`
pairs: `parts.map(part => regex.test(part) ? <mark>{part}</mark> : part)`.
A search term with empty trim returns the text unchanged (one plain part,
modelling `if (!searchTerm.trim()) return text`).  The regex built from the
escaped search term matches the literal term case-insensitively, which
`splitCI`/`containsCI` implement directly (see `litOfEscaped_escapeChars` for
the escaping step). -/
def highlightSearchTerm (text searchTerm : String) : List (Bool × String) :=
  if jsTrim searchTerm == "" then [(false, text)]
  else
    (splitCI searchTerm.toList text.toList).map
      (fun p => (containsCI searchTerm.toList p, String.mk p))

/-- The characters escaped by `highlightSearchTerm`'s
`searchTerm.replace(/[.*+?^$\x7b\x7d()|[\]\\]/g, '\\$&')`. -/
def regexSpecials : List Char :=
  ['.', '*', '+', '?', '^', '$', Char.ofNat 123, Char.ofNat 125,
   '(', ')', '|', '[', ']', '\\']

/-- The escaping replacement itself, character by character. -/
def escapeChars (l : List Char) : List Char :=
  (l.map (fun c => if c ∈ regexSpecials then ['\\', c] else [c])).flatten

/-- Reading an escaped pattern back as the literal character sequence a regex
engine would match: a backslash makes the next character literal, an unescaped
metacharacter means the pattern is not a plain literal (`none`). -/
def litOfEscaped : List Char → Option (List Char)
  | [] => some []
  | c :: rest =>
      if c == '\\' then
        match rest with
        | [] => none
        | c2 :: rest2 => (litOfEscaped rest2).map (c2 :: ·)
      else if c ∈ regexSpecials then none
      else (litOfEscaped rest).map (c :: ·)

end SearchHighlight

namespace ContactService

theorem genKey_not_mem {cands used : List String} {k : String}
    (h : genKey cands used = some k) : k ∉ used := by
  induction cands with
  | nil => simp [genKey] at h
  | cons c cs ih =>
      by_cases hc : c ∈ used
      · exact ih (by simpa [genKey, hc] using h)
      · simp only [genKey, if_neg hc, Option.some.injEq] at h
        subst h
        exact hc

theorem checkReply_snd (s : Store) (k : String) : (checkReply s k).2 = s := by
  unfold checkReply
  split
  · rfl
  · split <;> rfl

theorem sendMessage_success_inv {maxLen : Nat} {cands : List String} {now : Nat}
    {s : Store} {msg : String} {b : Bool} {rm k : String} {s1 : Store}
    (h : sendMessage maxLen cands now s msg b = (.success rm k, s1)) :
    serverValidate maxLen msg = true ∧ genKey cands (storeKeys s) = some k ∧
    s1 = s ++ [{ key := k, body := msg, is_public := b, created_at := now,
                 reply_body := none, reply_timestamp := none }] := by
  unfold sendMessage at h
  split at h
  · rename_i hv
    rcases hg : genKey cands (storeKeys s) with _ | k'
    · rw [hg] at h
      simp at h
    · rw [hg] at h
      injection h with h1 h2
      injection h1 with h3 h4
      subst h4
      exact ⟨hv, by first | exact hg | rfl, h2.symm⟩
  · simp at h

theorem applyReply_key (k body : String) (now : Nat) (m : Message) :
    (applyReply k body now m).key = m.key := by
  unfold applyReply
  split <;> rfl

theorem applyReply_is_public (k body : String) (now : Nat) (m : Message) :
    (applyReply k body now m).is_public = m.is_public := by
  unfold applyReply
  split <;> rfl

theorem storeKeys_append (s t : Store) :
    storeKeys (s ++ t) = storeKeys s ++ storeKeys t := by
  simp [storeKeys]

theorem storeKeys_map_applyReply (k body : String) (now : Nat) (s : Store) :
    storeKeys (s.map (applyReply k body now)) = storeKeys s := by
  simp only [storeKeys, List.map_map]
  exact List.map_congr_left (fun m _ => applyReply_key k body now m)

theorem sendMessage_snd (maxLen : Nat) (cands : List String) (now : Nat)
    (s : Store) (msg : String) (b : Bool) :
    (sendMessage maxLen cands now s msg b).2 = s ∨
    ∃ k, genKey cands (storeKeys s) = some k ∧
      (sendMessage maxLen cands now s msg b).2 =
        s ++ [{ key := k, body := msg, is_public := b, created_at := now,
                reply_body := none, reply_timestamp := none }] := by
  unfold sendMessage
  split
  · split
    · rename_i k hg
      exact Or.inr ⟨k, hg, rfl⟩
    · exact Or.inl rfl
  · exact Or.inl rfl

theorem adminHandler_snd (c t : Option String) (aop : AdminOp) (s : Store) :
    (adminHandler c t aop s).2 = s ∨
    ∃ k body now, aop = .reply k body now ∧
      (adminHandler c t aop s).2 = s.map (applyReply k body now) := by
  by_cases ha : adminAuth c t = true
  · cases aop with
    | list => exact Or.inl (by simp [adminHandler, ha])
    | stats => exact Or.inl (by simp [adminHandler, ha])
    | reply k body now =>
        by_cases hr : s.any (fun m => m.key == k) = true
        · exact Or.inr ⟨k, body, now, rfl, by simp [adminHandler, ha, hr]⟩
        · exact Or.inl (by simp [adminHandler, ha, hr])
  · exact Or.inl (by simp [adminHandler, ha])

/-- The invariant behind the negative half of the public/private separation:
key `k` has been issued (is in the store) and every row carrying it is
private. -/
def KeyPrivate (k : String) (s : Store) : Prop :=
  k ∈ storeKeys s ∧ ∀ m ∈ s, m.key = k → m.is_public = false

theorem keyPrivate_applyOp {k : String} {s : Store} (op : Op)
    (h : KeyPrivate k s) : KeyPrivate k (applyOp s op) := by
  obtain ⟨hk, hpriv⟩ := h
  cases op with
  | check key =>
      show KeyPrivate k (checkReply s key).2
      rw [checkReply_snd]
      exact ⟨hk, hpriv⟩
  | send maxLen cands now msg isPub =>
      show KeyPrivate k (sendMessage maxLen cands now s msg isPub).2
      rcases sendMessage_snd maxLen cands now s msg isPub with hs | ⟨k', hg, hs⟩
      · rw [hs]; exact ⟨hk, hpriv⟩
      · rw [hs]
        refine ⟨by rw [storeKeys_append]; exact List.mem_append_left _ hk, ?_⟩
        intro m hm hmk
        rcases List.mem_append.mp hm with hm | hm
        · exact hpriv m hm hmk
        · rcases List.mem_singleton.mp hm with rfl
          have hk'k : k' = k := hmk
          exact absurd (by rwa [hk'k]) (genKey_not_mem hg)
  | admin c t aop =>
      show KeyPrivate k (adminHandler c t aop s).2
      rcases adminHandler_snd c t aop s with hs | ⟨k', body, now, -, hs⟩
      · rw [hs]; exact ⟨hk, hpriv⟩
      · rw [hs]
        refine ⟨by rw [storeKeys_map_applyReply]; exact hk, ?_⟩
        intro m hm hmk
        rcases List.mem_map.mp hm with ⟨m0, hm0, rfl⟩
        rw [applyReply_is_public]
        exact hpriv m0 hm0 (by rw [← applyReply_key k' body now m0]; exact hmk)

theorem keyPrivate_runOps {k : String} {s : Store} (ops : List Op)
    (h : KeyPrivate k s) : KeyPrivate k (runOps s ops) := by
  induction ops generalizing s with
  | nil => exact h
  | cons op ops ih => exact ih (keyPrivate_applyOp op h)

theorem applyReply_body (k body : String) (now : Nat) (m : Message) :
    (applyReply k body now m).body = m.body := by
  unfold applyReply
  split <;> rfl

/-- The invariant behind the positive half of the public/private separation:
some row carries key `k`, body `msg`, and is public. -/
def KeyPublic (k msg : String) (s : Store) : Prop :=
  ∃ m, m ∈ s ∧ m.key = k ∧ m.is_public = true ∧ m.body = msg

theorem keyPublic_applyOp {k msg : String} {s : Store} (op : Op)
    (h : KeyPublic k msg s) : KeyPublic k msg (applyOp s op) := by
  obtain ⟨m, hm, hk, hpub, hbody⟩ := h
  cases op with
  | check key =>
      show KeyPublic k msg (checkReply s key).2
      rw [checkReply_snd]
      exact ⟨m, hm, hk, hpub, hbody⟩
  | send maxLen cands now msg1 isPub =>
      show KeyPublic k msg (sendMessage maxLen cands now s msg1 isPub).2
      rcases sendMessage_snd maxLen cands now s msg1 isPub with hs | ⟨k', -, hs⟩ <;>
        rw [hs]
      · exact ⟨m, hm, hk, hpub, hbody⟩
      · exact ⟨m, List.mem_append_left _ hm, hk, hpub, hbody⟩
  | admin c t aop =>
      show KeyPublic k msg (adminHandler c t aop s).2
      rcases adminHandler_snd c t aop s with hs | ⟨k', body, now, -, hs⟩ <;>
        rw [hs]
      · exact ⟨m, hm, hk, hpub, hbody⟩
      · exact ⟨applyReply k' body now m, List.mem_map_of_mem _ hm,
          (applyReply_key k' body now m).trans hk,
          (applyReply_is_public k' body now m).trans hpub,
          (applyReply_body k' body now m).trans hbody⟩

theorem keyPublic_runOps {k msg : String} {s : Store} (ops : List Op)
    (h : KeyPublic k msg s) : KeyPublic k msg (runOps s ops) := by
  induction ops generalizing s with
  | nil => exact h
  | cons op ops ih => exact ih (keyPublic_applyOp op h)

theorem toPublicMessage_mem_publicMessages {m : Message} {s : Store}
    (hm : m ∈ s) (hpub : m.is_public = true) :
    toPublicMessage m ∈ publicMessages s :=
  List.mem_map_of_mem _ (List.mem_filter.mpr ⟨hm, by simpa using hpub⟩)

/-- Well-formedness of the reply fields: `reply_body` and `reply_timestamp`
are set together (both absent until the admin replies, both present after).
Every store reachable through the handlers satisfies it. -/
def ReplyWF (s : Store) : Prop :=
  ∀ m ∈ s, m.reply_body.isNone = m.reply_timestamp.isNone

instance (s : Store) : Decidable (ReplyWF s) := by
  unfold ReplyWF
  infer_instance

theorem replyWF_applyOp {s : Store} (op : Op) (h : ReplyWF s) :
    ReplyWF (applyOp s op) := by
  cases op with
  | check key =>
      show ReplyWF (checkReply s key).2
      rw [checkReply_snd]; exact h
  | send maxLen cands now msg isPub =>
      show ReplyWF (sendMessage maxLen cands now s msg isPub).2
      rcases sendMessage_snd maxLen cands now s msg isPub with hs | ⟨k', -, hs⟩
      · rw [hs]; exact h
      · rw [hs]
        intro m hm
        rcases List.mem_append.mp hm with hm | hm
        · exact h m hm
        · rcases List.mem_singleton.mp hm with rfl
          rfl
  | admin c t aop =>
      show ReplyWF (adminHandler c t aop s).2
      rcases adminHandler_snd c t aop s with hs | ⟨k', body, now, -, hs⟩
      · rw [hs]; exact h
      · rw [hs]
        intro m hm
        rcases List.mem_map.mp hm with ⟨m0, hm0, rfl⟩
        unfold applyReply
        split
        · rfl
        · exact h m0 hm0

theorem replyWF_runOps {s : Store} (ops : List Op) (h : ReplyWF s) :
    ReplyWF (runOps s ops) := by
  induction ops generalizing s with
  | nil => exact h
  | cons op ops ih => exact ih (replyWF_applyOp op h)

/-- Claim C3: for every reply-check request the outcome is exactly one of
three shapes — unknown key gives the invalid-key error (never a success), a
known key without a reply gives the "no reply yet" error, and a known key with
a reply gives `{status:"success", reply}`; the three outcomes are exhaustive
and mutually exclusive. -/
theorem checkReply_trichotomy (s : Store) (k : String) :
    (s.find? (fun m => m.key == k) = none →
       (checkReply s k).1 = .error "invalid key" ∧
       ∀ r, (checkReply s k).1 ≠ .success r)
  ∧ (∀ m, s.find? (fun m => m.key == k) = some m → m.reply_body = none →
       (checkReply s k).1 = .error "no reply yet")
  ∧ (∀ m r, s.find? (fun m => m.key == k) = some m → m.reply_body = some r →
       (checkReply s k).1 = .success r)
  ∧ ((checkReply s k).1 = .error "invalid key" ∨
     (checkReply s k).1 = .error "no reply yet" ∨
     ∃ r, (checkReply s k).1 = .success r)
  ∧ ((checkReply s k).1 = .error "invalid key" →
       (checkReply s k).1 ≠ .error "no reply yet")
  ∧ (∀ r, (checkReply s k).1 = .success r →
       (checkReply s k).1 ≠ .error "invalid key" ∧
       (checkReply s k).1 ≠ .error "no reply yet") := by
  rcases hf : s.find? (fun m => m.key == k) with _ | m
  · simp [checkReply, hf]
  · rcases hr : m.reply_body with _ | r
    · simp [checkReply, hf, hr]
      rintro m1 r rfl
      simp [hr]
    · simp [checkReply, hf, hr]
      rintro m1 r1 rfl h1
      rw [hr] at h1
      exact Option.some_inj.mp h1

/-- Witness for C3 at a concrete request: a key never issued yields the
invalid-key error shape. -/
theorem checkReply_trichotomy_witness :
    (checkReply [] "never-issued").1 = .error "invalid key" :=
  ((checkReply_trichotomy [] "never-issued").1 rfl).1

/-- Claim C8: the reply-check handler performs no mutation — the store after
any reply-check request equals the store before it, whatever the outcome. -/
theorem checkReply_no_mutation (s : Store) (k : String) :
    (checkReply s k).2 = s :=
  checkReply_snd s k

/-- Claim C4 counterexample: a message of ten spaces is whitespace-only
(empty after trimming), yet `anonymousMessageSchema` accepts it, because
`z.string().min(10).max(500)` bounds only the raw length and never trims.
This refutes the claim that validation accepts exactly the inputs that are
non-empty after trimming and within the 10-500 bound. -/
theorem anonymousMessageValid_whitespace_accepted :
    anonymousMessageValid "          " = true ∧
    jsTrim "          " = "" := by
  constructor
  · decide
  · decide

/-- Claim C4 (amended): the schema accepts a message exactly when its raw
length is between 10 and 500 characters inclusive; no trimming or
whitespace-only check is applied. -/
theorem anonymousMessageValid_iff_length_bounds (m : String) :
    anonymousMessageValid m = true ↔ 10 ≤ m.length ∧ m.length ≤ 500 := by
  simp [anonymousMessageValid]

/-- Witness for the amended C4 at a concrete message of length 10. -/
theorem anonymousMessageValid_iff_length_bounds_witness :
    anonymousMessageValid "0123456789" = true :=
  (anonymousMessageValid_iff_length_bounds "0123456789").mpr (by decide)

/-- Claim C6: an admin request presenting a missing or incorrect bearer token
is rejected with the authentication failure, for every operation and every
store (so before and independent of any store access), and when no admin
secret is configured every request is rejected no matter what token it
presents — there is no default credential. -/
theorem adminHandler_auth_gate (config token : Option String) (op : AdminOp)
    (s : Store) :
    (∀ secret, config = some secret → token ≠ some secret →
       adminHandler config token op s = (.authFailure, s))
  ∧ (token = none → adminHandler config token op s = (.authFailure, s))
  ∧ (config = none → ∀ tok : Option String,
       adminHandler config tok op s = (.authFailure, s)) := by
  refine ⟨?_, ?_, ?_⟩
  · rintro secret rfl htok
    have ha : adminAuth (some secret) token = false := by
      simp [adminAuth]
      intro h
      exact absurd (by rw [h]) htok
    simp [adminHandler, ha]
  · rintro rfl
    cases config with
    | none => simp [adminHandler, adminAuth]
    | some secret => simp [adminHandler, adminAuth]
  · rintro rfl tok
    simp [adminHandler, adminAuth]

/-- Witness for C6 at a concrete request: with secret "hunter2" configured, a
wrong token, a missing token, and (with no secret configured) even the
would-be default token are all rejected without touching the store. -/
theorem adminHandler_auth_gate_witness :
    adminHandler (some "hunter2") (some "wrong") .list [] = (.authFailure, []) ∧
    adminHandler (some "hunter2") none .stats [] = (.authFailure, []) ∧
    adminHandler none (some "hunter2") .list [] = (.authFailure, []) :=
  ⟨(adminHandler_auth_gate (some "hunter2") (some "wrong") .list []).1
      "hunter2" rfl (by decide),
   (adminHandler_auth_gate (some "hunter2") none .stats []).2.1 rfl,
   (adminHandler_auth_gate none (some "hunter2") .list []).2.2 rfl (some "hunter2")⟩

/-- Claim C7: a successful submission returns `{status:"success", key}` with
the freshly generated key and appends exactly one Message row, which starts
with `replied = false`; a submission failing validation returns the error
shape with the per-field error map under `errors` and leaves the store
unchanged. -/
theorem sendMessage_contract (maxLen : Nat) (cands : List String) (now : Nat)
    (s : Store) (msg : String) (b : Bool) :
    (∀ rm k s1, sendMessage maxLen cands now s msg b = (.success rm k, s1) →
       genKey cands (storeKeys s) = some k ∧
       s1 = s ++ [{ key := k, body := msg, is_public := b, created_at := now,
                    reply_body := none, reply_timestamp := none }] ∧
       s1.length = s.length + 1 ∧
       Message.replied { key := k, body := msg, is_public := b,
                         created_at := now, reply_body := none,
                         reply_timestamp := none } = false)
  ∧ (serverValidate maxLen msg = false →
       sendMessage maxLen cands now s msg b =
         (.error "Validation failed"
            [("message",
              ["message must be non-empty and within the maximum length"])],
          s)) := by
  constructor
  · intro rm k s1 h
    obtain ⟨-, hg, hs⟩ := sendMessage_success_inv h
    refine ⟨hg, hs, ?_, rfl⟩
    rw [hs]
    simp
  · intro hv
    unfold sendMessage
    rw [if_neg (by simp [hv])]

/-- Witness for C7 at concrete requests: a valid public submission appends the
one expected unreplied row, and a whitespace-only submission returns the
validation error and leaves the store empty. -/
theorem sendMessage_contract_witness :
    (genKey ["k1"] (storeKeys ([] : Store)) = some "k1" ∧
     [({ key := "k1", body := "Hello there, anonymous!", is_public := true,
         created_at := 5, reply_body := none, reply_timestamp := none } :
        Message)] =
       [] ++ [{ key := "k1", body := "Hello there, anonymous!",
                is_public := true, created_at := 5, reply_body := none,
                reply_timestamp := none }] ∧
     ([({ key := "k1", body := "Hello there, anonymous!", is_public := true,
          created_at := 5, reply_body := none, reply_timestamp := none } :
         Message)]).length = ([] : Store).length + 1 ∧
     Message.replied { key := "k1", body := "Hello there, anonymous!",
                       is_public := true, created_at := 5, reply_body := none,
                       reply_timestamp := none } = false) ∧
    sendMessage 500 ["k1"] 6 [] "   " true =
      (.error "Validation failed"
         [("message",
           ["message must be non-empty and within the maximum length"])],
       []) :=
  ⟨(sendMessage_contract 500 ["k1"] 5 [] "Hello there, anonymous!" true).1
      "Message sent" "k1" _ (by decide),
   (sendMessage_contract 500 ["k1"] 6 [] "   " true).2 (by decide)⟩

/-- Claim C9: in `onCheckReply`, an empty entered key issues no network
request and leaves the form state — in particular the displayed reply message
and reply status — unchanged; the only effect is the invalid-key error
toast. -/
theorem onCheckReply_empty_key (tr : CheckReplyTranslations)
    (st : CheckReplyFormState) (response : Option CheckReplyResponse)
    (h : st.keyToCheck = "") :
    onCheckReply tr st response = (st, [.error tr.invalidKeyToast], []) := by
  unfold onCheckReply
  rw [if_pos (by simp [h])]

/-- Witness for C9 at a concrete form state with an empty key field. -/
theorem onCheckReply_empty_key_witness :
    onCheckReply
      { invalidKeyToast := "Please enter a key",
        replyReceived := "Reply received!",
        toastErrorUnexpected := "Unexpected error" }
      { replyMessage := none, replyStatus := none, isCheckingReply := false,
        keyToCheck := "" }
      none =
      ({ replyMessage := none, replyStatus := none, isCheckingReply := false,
         keyToCheck := "" },
       [.error "Please enter a key"], []) :=
  onCheckReply_empty_key _ _ _ rfl

/-- Claim C1: a message submitted with `public=true` appears in the public
listing right after the submission and keeps an entry there under every later
sequence of requests (admin replies included), while a message submitted with
`public=false` is never drawn into the public listing by any later sequence of
requests: every row the listing selects is public, and the private
submission's row — the only row ever carrying its key — stays private
forever. -/
theorem public_flag_controls_listing (maxLen : Nat) (cands : List String)
    (now : Nat) (s : Store) (msg : String) (b : Bool) (rm k : String)
    (s1 : Store)
    (hsend : sendMessage maxLen cands now s msg b = (.success rm k, s1)) :
    (b = true →
       toPublicMessage { key := k, body := msg, is_public := true,
                         created_at := now, reply_body := none,
                         reply_timestamp := none } ∈ publicMessages s1)
  ∧ (b = true → ∀ ops : List Op, ∃ m, m ∈ runOps s1 ops ∧ m.key = k ∧
       m.body = msg ∧ m.is_public = true ∧
       toPublicMessage m ∈ publicMessages (runOps s1 ops))
  ∧ (b = false → ∀ ops : List Op, ∀ r ∈ runOps s1 ops,
       r.is_public = true → r.key ≠ k) := by
  obtain ⟨-, hg, hs⟩ := sendMessage_success_inv hsend
  refine ⟨?_, ?_, ?_⟩
  · rintro rfl
    rw [hs]
    unfold publicMessages
    rw [List.filter_append, List.map_append]
    apply List.mem_append_right
    simp [List.filter]
  · rintro rfl ops
    have hkp : KeyPublic k msg s1 := by
      rw [hs]
      exact ⟨_, List.mem_append_right _ (List.mem_singleton_self _), rfl, rfl,
        rfl⟩
    obtain ⟨m, hm, hk, hpub, hbody⟩ := keyPublic_runOps ops hkp
    exact ⟨m, hm, hk, hbody, hpub,
      toPublicMessage_mem_publicMessages hm hpub⟩
  · rintro rfl ops r hr hpub hkeq
    have hkp : KeyPrivate k s1 := by
      rw [hs]
      constructor
      · rw [storeKeys_append]
        apply List.mem_append_right
        simp [storeKeys]
      · intro m hm hmk
        rcases List.mem_append.mp hm with hm | hm
        · exact absurd (hmk ▸ List.mem_map_of_mem (fun m => m.key) hm)
            (genKey_not_mem hg)
        · rcases List.mem_singleton.mp hm with rfl
          rfl
    have hpriv := (keyPrivate_runOps ops hkp).2 r hr hkeq
    rw [hpub] at hpriv
    exact absurd hpriv (by decide)

/-- Witness for C1: the example scenario's public submission is listed. -/
theorem public_flag_controls_listing_witness :
    toPublicMessage { key := "k1", body := "Hello there, anonymous!",
                      is_public := true, created_at := 5, reply_body := none,
                      reply_timestamp := none } ∈
      publicMessages [{ key := "k1", body := "Hello there, anonymous!",
                        is_public := true, created_at := 5,
                        reply_body := none, reply_timestamp := none }] :=
  (public_flag_controls_listing 500 ["k1"] 5 [] "Hello there, anonymous!" true
      "Message sent" "k1"
      [{ key := "k1", body := "Hello there, anonymous!", is_public := true,
         created_at := 5, reply_body := none, reply_timestamp := none }]
      (by decide)).1 rfl

/-- Claim C5: every public-listing entry is exactly the five-field shape
`{message, timestamp, reply, reply_timestamp, replied}`, its `reply` and
`reply_timestamp` are null exactly when it is unanswered (given the reply
fields are well-formed, as every reachable store is), it is derived from some
public row of the store (never from a private message), and the derivation
ignores the row's `key`, so no entry can carry it. -/
theorem publicMessages_entry_shape (s : Store) (h : ReplyWF s)
    (p : PublicMessage) (hp : p ∈ publicMessages s) :
    p = { message := p.message, timestamp := p.timestamp, reply := p.reply,
          reply_timestamp := p.reply_timestamp, replied := p.replied }
  ∧ (p.reply = none ↔ p.replied = false)
  ∧ (p.reply_timestamp = none ↔ p.replied = false)
  ∧ (∃ m, m ∈ s ∧ m.is_public = true ∧ toPublicMessage m = p)
  ∧ (∀ (m : Message) (k' : String),
       toPublicMessage { m with key := k' } = toPublicMessage m) := by
  obtain ⟨m, hm, hpm⟩ := List.mem_map.mp hp
  have hms : m ∈ s := List.mem_of_mem_filter hm
  have hmp : m.is_public = true := by
    simpa using List.of_mem_filter hm
  subst hpm
  refine ⟨rfl, ?_, ?_, ⟨m, hms, hmp, rfl⟩, fun m k' => rfl⟩
  · show m.reply_body = none ↔ m.reply_body.isSome = false
    rcases m.reply_body with _ | r <;> simp
  · show m.reply_timestamp = none ↔ m.reply_body.isSome = false
    have hwf := h m hms
    rcases hb : m.reply_body with _ | r <;> rcases ht : m.reply_timestamp with _ | t <;>
      simp_all

/-- Witness for C5 at a concrete well-formed store: the entry derived from an
unanswered public message has a null reply and `replied = false`. -/
theorem publicMessages_entry_shape_witness :
    (toPublicMessage { key := "k1", body := "Hello there, anonymous!",
                       is_public := true, created_at := 5, reply_body := none,
                       reply_timestamp := none }).reply = none ↔
    (toPublicMessage { key := "k1", body := "Hello there, anonymous!",
                       is_public := true, created_at := 5, reply_body := none,
                       reply_timestamp := none }).replied = false :=
  (publicMessages_entry_shape
      [{ key := "k1", body := "Hello there, anonymous!", is_public := true,
         created_at := 5, reply_body := none, reply_timestamp := none }]
      (by decide) _ (by decide)).2.1

/-- Claim C2 (evaluation at the failing input): `generateRandomKey` in
`ContactForm.tsx` is a deterministic function of two `Math.random()` samples —
a seedable, non-cryptographic PRNG — so once the PRNG outputs are known
(here both 0.5, numerator `2^52` of `2^53`) the issued key is entirely
predictable; it is not produced by a cryptographically adequate random
source, and no collision-retry appears anywhere in the code. -/
theorem generateRandomKey_predictable :
    generateRandomKey (2 ^ 52) (2 ^ 52) = "i000000000000i000000000000" := by
  decide

end ContactService

namespace SearchHighlight

theorem splitCIGo_flatten (term acc text : List Char) :
    (splitCIGo term acc text).flatten = acc.reverse ++ text := by
  cases text with
  | nil => simp [splitCIGo]
  | cons c cs =>
      rw [splitCIGo]
      by_cases h : 0 < term.length ∧ matchesAtCI term (c :: cs) = true
      · rw [dif_pos h]
        rw [List.flatten_cons, List.flatten_cons,
          splitCIGo_flatten term [] ((c :: cs).drop term.length)]
        simp [List.take_append_drop]
      · rw [dif_neg h]
        rw [splitCIGo_flatten term (c :: acc) cs]
        simp
termination_by text.length
decreasing_by
  all_goals simp only [List.length_drop, List.length_cons]
  all_goals omega

theorem splitCI_flatten (term text : List Char) :
    (splitCI term text).flatten = text := by
  simpa using splitCIGo_flatten term [] text

theorem stringMk_append (a b : List Char) :
    String.mk a ++ String.mk b = String.mk (a ++ b) :=
  rfl

theorem stringJoin_map_mk_foldl (l : List (List Char)) (init : List Char) :
    (l.map String.mk).foldl (· ++ ·) (String.mk init) =
      String.mk (init ++ l.flatten) := by
  induction l generalizing init with
  | nil => simp
  | cons a l ih =>
      simp only [List.map_cons, List.foldl_cons]
      rw [stringMk_append, ih]
      simp

theorem stringJoin_map_mk (l : List (List Char)) :
    String.join (l.map String.mk) = String.mk l.flatten := by
  have h0 : ("" : String) = String.mk [] := rfl
  show (l.map String.mk).foldl (fun r s => r ++ s) "" = String.mk l.flatten
  rw [h0]
  simpa using stringJoin_map_mk_foldl l []

theorem stringMk_toList (s : String) : String.mk s.toList = s := by
  cases s
  rfl

theorem litOfEscaped_cons_plain (c : Char) (rest : List Char)
    (hne : (c == '\\') = false) (hc : c ∉ regexSpecials) :
    litOfEscaped (c :: rest) = (litOfEscaped rest).map (c :: ·) := by
  cases rest with
  | nil => simp [litOfEscaped, hne, hc]
  | cons c2 rest2 => simp [litOfEscaped, hne, hc]

theorem litOfEscaped_escapeChars (l : List Char) :
    litOfEscaped (escapeChars l) = some l := by
  induction l with
  | nil => rfl
  | cons c l ih =>
      by_cases hc : c ∈ regexSpecials
      · have he : escapeChars (c :: l) = '\\' :: c :: escapeChars l := by
          simp [escapeChars, hc]
        rw [he]
        simp [litOfEscaped, ih]
      · have hne : (c == '\\') = false := by
          have : c ≠ '\\' := fun he => hc (he ▸ (by decide : '\\' ∈ regexSpecials))
          simpa using this
        have he : escapeChars (c :: l) = c :: escapeChars l := by
          simp [escapeChars, hc]
        rw [he, litOfEscaped_cons_plain c (escapeChars l) hne hc, ih]
        rfl

/-- Claim C10: for every text and search term, concatenating the parts
`highlightSearchTerm` returns — highlighted and plain alike, in order — gives
back exactly the original text; a whitespace-only search term returns the
text unchanged as a single plain part; and the escaping step turns the search
term into a regex pattern denoting exactly the literal term, so matching is
literal. -/
theorem highlightSearchTerm_partition (text searchTerm : String) :
    String.join ((highlightSearchTerm text searchTerm).map (fun p => p.2)) =
      text
  ∧ (jsTrim searchTerm = "" →
       highlightSearchTerm text searchTerm = [(false, text)])
  ∧ litOfEscaped (escapeChars searchTerm.toList) = some searchTerm.toList := by
  refine ⟨?_, ?_, litOfEscaped_escapeChars searchTerm.toList⟩
  · unfold highlightSearchTerm
    by_cases h : jsTrim searchTerm == ""
    · rw [if_pos h]
      show String.join [text] = text
      rw [show String.join [text] = "" ++ text from rfl]
      cases text
      rfl
    · rw [if_neg h]
      rw [List.map_map]
      show String.join
        ((splitCI searchTerm.toList text.toList).map String.mk) = text
      rw [stringJoin_map_mk, splitCI_flatten, stringMk_toList]
  · intro hh
    unfold highlightSearchTerm
    rw [if_pos (by simp [hh])]

/-- Witness for C10 with a whitespace-only search term on a concrete text. -/
theorem highlightSearchTerm_partition_witness :
    jsTrim "   " = "" ∧
    highlightSearchTerm "Hello World" "   " = [(false, "Hello World")] :=
  ⟨by decide, (highlightSearchTerm_partition "Hello World" "   ").2.1 (by decide)⟩

end SearchHighlight
